import Mathlib

set_option maxRecDepth 4000

/-!
A verification development for the content-intelligence-library service
(`src/app.py`).  The Python code is shallowly embedded: JSON files become
explicit state values, Python dicts become insertion-ordered association
lists (their keys are unique), ISO-8601 UTC timestamps become natural
numbers (lexicographic order on such strings is chronological order),
and calls to the external collaborators (the generation service, the
speech-synthesis service) are parameterized by their outcome, since any
of them can raise.  Local persistence (reading and writing the JSON
files) is modelled as a total state update.
-/

/-! ## Job registry (src/app.py lines 106-168) -/

/-- The four job lifecycle states stored in the `status` field. -/
inductive Status where
  | queued
  | running
  | done
  | error
deriving DecidableEq, Repr

/-- One record of the jobs dict, with the fields set by `create_job`
(src/app.py lines 123-141).  `result` is an opaque payload. -/
structure Job where
  id : String
  type : String
  status : Status
  created_at : Nat
  updated_at : Nat
  progress : String
  result : Option String
  error : Option String
  series_id : Option String
  series_ep : Option Nat
deriving DecidableEq, Repr

/-- The jobs dict of `jobs.json`: an insertion-ordered association list
from job id to record.  Python dict keys are unique. -/
abbrev Registry : Type := List (String × Job)

/-- Dict lookup `jobs.get(job_id)`. -/
def lookupJob (reg : Registry) (job_id : String) : Option Job :=
  (List.find? (fun kv => kv.1 == job_id) reg).map (fun kv => kv.2)

/-- The `status` field of a job in the registry, if the job is present. -/
def jobStatus (reg : Registry) (job_id : String) : Option Status :=
  (lookupJob reg job_id).map (fun j => j.status)

/-- Dict assignment `jobs[job_id] = job` for a key already present:
replaces the value in place, keeping insertion order. -/
def setJob : Registry → String → Job → Registry
  | [], _, _ => []
  | kv :: rest, job_id, job =>
    if kv.1 == job_id then (job_id, job) :: rest else kv :: setJob rest job_id job

/-- Sort order used by `_save_jobs`: `jobs[k].get("created_at", "")`
ascending.  Python `sorted` is stable, as is `List.insertionSort`. -/
def createdLE (a b : String × Job) : Prop :=
  a.2.created_at ≤ b.2.created_at

instance : DecidableRel createdLE := fun a b => by
  unfold createdLE
  infer_instance

instance : IsTotal (String × Job) createdLE :=
  ⟨fun a b => Nat.le_total a.2.created_at b.2.created_at⟩

instance : IsTrans (String × Job) createdLE :=
  ⟨fun _ _ _ hab hbc => Nat.le_trans hab hbc⟩

/-- `_save_jobs` (src/app.py lines 116-121): if the dict holds more than
200 records, sort the keys by `created_at` and delete all but the last
200 before writing the file; the surviving records keep their original
insertion order. -/
def save_jobs (jobs : Registry) : Registry :=
  if jobs.length > 200 then
    let sortedKeys := (List.insertionSort createdLE jobs).map (fun kv => kv.1)
    let dropped := sortedKeys.take (jobs.length - 200)
    jobs.filter (fun kv => !(dropped.contains kv.1))
  else jobs

/-- The record `create_job` builds (src/app.py lines 125-136). -/
def mkJob (job_id job_type : String) (now : Nat)
    (series_id : Option String) (series_ep : Option Nat) : Job :=
  { id := job_id
    type := job_type
    status := .queued
    created_at := now
    updated_at := now
    progress := "Queued..."
    result := none
    error := none
    series_id := series_id
    series_ep := series_ep }

/-- `create_job` (src/app.py lines 123-141): insert a fresh `queued`
record and persist.  The fresh id (8 chars of a uuid) is an argument. -/
def create_job (reg : Registry) (job_id job_type : String) (now : Nat)
    (series_id : Option String) (series_ep : Option Nat) : Registry :=
  save_jobs (reg ++ [(job_id, mkJob job_id job_type now series_id series_ep)])

/-- The keyword arguments of one `update_job` call: each field is merged
into the record when present. -/
structure JobUpdate where
  status : Option Status
  progress : Option String
  result : Option String
  error : Option String
deriving DecidableEq, Repr

/-- An update call that sets none of the four fields (every call also
refreshes `updated_at`). -/
def JobUpdate.empty : JobUpdate :=
  ⟨none, none, none, none⟩

/-- `jobs[job_id].update(kwargs)` plus the forced `updated_at` refresh
(src/app.py lines 143-144). -/
def applyUpdate (job : Job) (u : JobUpdate) (now : Nat) : Job :=
  { job with
    status := u.status.getD job.status
    progress := u.progress.getD job.progress
    result := match u.result with | some r => some r | none => job.result
    error := match u.error with | some e => some e | none => job.error
    updated_at := now }

/-- `update_job` (src/app.py lines 143-149): merge the given fields into
the record if the id is known (silently a no-op otherwise) and persist. -/
def update_job (reg : Registry) (job_id : String) (u : JobUpdate) (now : Nat) : Registry :=
  match lookupJob reg job_id with
  | none => reg
  | some job => save_jobs (setJob reg job_id (applyUpdate job u now))

/-- `clear_queue` (src/app.py lines 159-168): delete every record whose
status is `queued` or `error`, count the deletions, persist, and return
the count. -/
def clear_queue (reg : Registry) : Nat × Registry :=
  let isCleared : String × Job → Bool := fun kv =>
    kv.2.status == Status.queued || kv.2.status == Status.error
  let kept := reg.filter (fun kv => !(isCleared kv))
  let cleared := (reg.filter isCleared).length
  (cleared, save_jobs kept)

/-! ## Retention-policy lemmas (claim C3) -/

/-- In a list whose keys are unique, two members with the same key are
the same member. -/
theorem eq_of_fst_eq_of_keys_nodup {α β : Type} [DecidableEq α]
    {l : List (α × β)} (h : (l.map Prod.fst).Nodup)
    {x y : α × β} (hx : x ∈ l) (hy : y ∈ l) (hxy : x.1 = y.1) : x = y := by
  induction l with
  | nil => cases hx
  | cons a tl ih =>
    simp only [List.map_cons, List.nodup_cons] at h
    rcases List.mem_cons.mp hx with rfl | hx' <;>
      rcases List.mem_cons.mp hy with rfl | hy'
    · rfl
    · exact absurd (hxy ▸ List.mem_map_of_mem Prod.fst hy') h.1
    · exact absurd (hxy ▸ List.mem_map_of_mem Prod.fst hx') h.1
    · exact ih h.2 hx' hy'

theorem save_jobs_of_le {jobs : Registry} (h : jobs.length ≤ 200) :
    save_jobs jobs = jobs := by
  simp only [save_jobs, gt_iff_lt]
  rw [if_neg (by omega)]

theorem save_jobs_of_gt {jobs : Registry} (h : jobs.length > 200) :
    save_jobs jobs = jobs.filter (fun kv =>
      !((((List.insertionSort createdLE jobs).map (fun kv => kv.1)).take
          (jobs.length - 200)).contains kv.1)) := by
  simp only [save_jobs, gt_iff_lt]
  rw [if_pos h]

/-- `save_jobs` on an oversized registry keeps, as a permutation, the
tail of the sort by `created_at` (the 200 youngest records). -/
theorem save_jobs_perm_drop {jobs : Registry}
    (hnd : (jobs.map Prod.fst).Nodup) (h : jobs.length > 200) :
    (save_jobs jobs).Perm
      ((List.insertionSort createdLE jobs).drop (jobs.length - 200)) := by
  set sorted := List.insertionSort createdLE jobs with hsorted
  set d := jobs.length - 200 with hd
  have hperm : sorted.Perm jobs := List.perm_insertionSort createdLE jobs
  have hkeys : (sorted.map Prod.fst).Nodup :=
    ((hperm.map Prod.fst).nodup_iff).mpr hnd
  have hsplit : sorted.take d ++ sorted.drop d = sorted := List.take_append_drop d sorted
  have hdropkeys : ((sorted.map (fun kv => kv.1)).take d) = (sorted.take d).map (fun kv => kv.1) := by
    rw [List.map_take]
  set p : String × Job → Bool := fun kv =>
    !(((sorted.map (fun kv => kv.1)).take d).contains kv.1) with hp
  have hpfalse : ∀ kv : String × Job, kv.1 ∈ (sorted.take d).map (fun kv => kv.1) → p kv = false := by
    intro kv hkv
    simp only [hp, hdropkeys]
    simp [List.elem_iff]
    rw [List.map_take] at hkv
    exact hkv
  have hptrue : ∀ kv : String × Job, kv.1 ∉ (sorted.take d).map (fun kv => kv.1) → p kv = true := by
    intro kv hkv
    simp only [hp, hdropkeys]
    simp [List.elem_iff]
    rw [List.map_take] at hkv
    exact hkv
  have hres : save_jobs jobs = jobs.filter p := save_jobs_of_gt h
  have hperm2 : (jobs.filter p).Perm (sorted.filter p) :=
    (hperm.filter p).symm
  have htake : (sorted.take d).filter p = [] := by
    rw [List.filter_eq_nil_iff]
    intro kv hkv
    rw [hpfalse kv (List.mem_map_of_mem (fun kv => kv.1) hkv)]
    simp
  have hdropfilter : (sorted.drop d).filter p = sorted.drop d := by
    rw [List.filter_eq_self]
    intro kv hkv
    refine hptrue kv ?_
    intro hmem
    rcases List.mem_map.mp hmem with ⟨kvd, hkvd, hkey⟩
    have hkvs : kv ∈ sorted := by
      rw [← hsplit]; exact List.mem_append_right _ hkv
    have hkvds : kvd ∈ sorted := by
      rw [← hsplit]; exact List.mem_append_left _ hkvd
    have : kvd = kv := eq_of_fst_eq_of_keys_nodup hkeys hkvds hkvs hkey
    subst this
    have hnda : ((sorted.take d ++ sorted.drop d).map Prod.fst).Nodup := by
      rw [hsplit]; exact hkeys
    rw [List.map_append, List.nodup_append] at hnda
    exact hnda.2.2 (List.mem_map_of_mem Prod.fst hkvd) (List.mem_map_of_mem Prod.fst hkv)
  have : sorted.filter p = sorted.drop d := by
    conv_lhs => rw [← hsplit]
    rw [List.filter_append, htake, hdropfilter, List.nil_append]
  rw [hres]
  rw [this] at hperm2
  exact hperm2

/-- Every record `save_jobs` evicts from an oversized registry is at
least as old (by `created_at`) as every record it keeps. -/
theorem save_jobs_evicts_oldest {jobs : Registry}
    (hnd : (jobs.map Prod.fst).Nodup) (h : jobs.length > 200) :
    ∀ kv ∈ jobs, kv ∉ save_jobs jobs →
      ∀ kv' ∈ save_jobs jobs, kv.2.created_at ≤ kv'.2.created_at := by
  intro kv hkv hkvout kv' hkv'
  set sorted := List.insertionSort createdLE jobs with hsorted
  set d := jobs.length - 200 with hd
  have hperm : sorted.Perm jobs := List.perm_insertionSort createdLE jobs
  have hmemres : ∀ x : String × Job, x ∈ save_jobs jobs ↔ x ∈ sorted.drop d :=
    fun x => (save_jobs_perm_drop hnd h).mem_iff
  have hsort : List.Sorted createdLE sorted :=
    List.sorted_insertionSort createdLE jobs
  have hsplit : sorted.take d ++ sorted.drop d = sorted := List.take_append_drop d sorted
  have hrel : ∀ a ∈ sorted.take d, ∀ b ∈ sorted.drop d, createdLE a b := by
    have := hsort
    rw [← hsplit, List.Sorted, List.pairwise_append] at this
    exact this.2.2
  have hkv'drop : kv' ∈ sorted.drop d := (hmemres kv').mp hkv'
  have hkvtake : kv ∈ sorted.take d := by
    have hkvs : kv ∈ sorted := hperm.mem_iff.mpr hkv
    rcases List.mem_append.mp (hsplit ▸ hkvs) with htk | hdp
    · exact htk
    · exact absurd ((hmemres kv).mpr hdp) hkvout
  exact hrel kv hkvtake kv' hkv'drop

/-- C3: after every persist (`save_jobs`), a registry holding more than
200 records is trimmed back to exactly 200 by evicting the oldest
records by `created_at`; in particular a 201-record registry (one
insertion past the bound) loses exactly one record, and the lost record
has the earliest `created_at` among all records present. -/
theorem c3_retention_after_persist (jobs : Registry)
    (hnd : (jobs.map Prod.fst).Nodup) :
    (jobs.length > 200 →
      (save_jobs jobs).length = 200 ∧
      (save_jobs jobs).Sublist jobs ∧
      (∀ kv ∈ jobs, kv ∉ save_jobs jobs →
        ∀ kv' ∈ save_jobs jobs, kv.2.created_at ≤ kv'.2.created_at)) ∧
    (jobs.length = 201 →
      ∃ kv ∈ jobs, kv ∉ save_jobs jobs ∧
        (∀ kv' ∈ jobs, kv' ≠ kv → kv' ∈ save_jobs jobs) ∧
        (∀ kv' ∈ jobs, kv.2.created_at ≤ kv'.2.created_at)) := by
  constructor
  · intro h
    refine ⟨?_, ?_, save_jobs_evicts_oldest hnd h⟩
    · have hlen := (save_jobs_perm_drop hnd h).length_eq
      rw [List.length_drop] at hlen
      have := (List.perm_insertionSort createdLE jobs).length_eq
      omega
    · rw [save_jobs_of_gt h]
      exact List.filter_sublist jobs
  · intro h201
    have h : jobs.length > 200 := by omega
    set sorted := List.insertionSort createdLE jobs with hsorted
    have hperm : sorted.Perm jobs := List.perm_insertionSort createdLE jobs
    have hkeys : (sorted.map Prod.fst).Nodup :=
      ((hperm.map Prod.fst).nodup_iff).mpr hnd
    have hsort : List.Sorted createdLE sorted :=
      List.sorted_insertionSort createdLE jobs
    have hd1 : jobs.length - 200 = 1 := by omega
    have hlen : sorted.length = 201 := by rw [hperm.length_eq, h201]
    obtain ⟨a, tl, hcons⟩ : ∃ a tl, sorted = a :: tl := by
      cases hsrt : sorted with
      | nil => rw [hsrt] at hlen; simp at hlen
      | cons a tl => exact ⟨a, tl, rfl⟩
    have hmemres : ∀ x : String × Job,
        x ∈ save_jobs jobs ↔ x ∈ sorted.drop (jobs.length - 200) :=
      fun x => (save_jobs_perm_drop hnd h).mem_iff
    have hdrop : sorted.drop (jobs.length - 200) = tl := by
      rw [hd1, hcons]
      rfl
    have hmemres' : ∀ x, x ∈ save_jobs jobs ↔ x ∈ tl := by
      intro x
      rw [hmemres, hdrop]
    have hnotin : a ∉ tl := by
      intro hin
      rw [hcons, List.map_cons, List.nodup_cons] at hkeys
      exact hkeys.1 (List.mem_map_of_mem Prod.fst hin)
    refine ⟨a, hperm.mem_iff.mp (hcons ▸ List.mem_cons_self a tl), ?_, ?_, ?_⟩
    · intro hres
      exact hnotin ((hmemres' a).mp hres)
    · intro kv' hkv' hne
      have hkvs : kv' ∈ sorted := hperm.mem_iff.mpr hkv'
      rw [hcons] at hkvs
      rcases List.mem_cons.mp hkvs with rfl | htl
      · exact absurd rfl hne
      · exact (hmemres' kv').mpr htl
    · intro kv' hkv'
      have hkvs : kv' ∈ sorted := hperm.mem_iff.mpr hkv'
      rw [hcons] at hkvs
      rcases List.mem_cons.mp hkvs with rfl | htl
      · exact Nat.le_refl _
      · rw [hcons, List.sorted_cons] at hsort
        exact hsort.1 kv' htl

/-! ## Queue clearing (claim C4) -/

/-- A concrete 201-record registry: 201 distinct one-character ids,
strictly increasing creation timestamps, every job `running`. -/
def demoReg201 : Registry :=
  (List.range 201).map (fun i =>
    (String.mk [Char.ofNat (65 + i)],
     { mkJob (String.mk [Char.ofNat (65 + i)]) "generate" i none none with
        status := Status.running }))

/-- C4 counterexample: on a registry of 201 `running` jobs, `clear_queue`
returns 0 but the registry shrinks by one record (the persist inside it
evicts a `running` job), so the returned count does not equal the
decrease in registry size and a `running` job is removed. -/
theorem c4_counterexample :
    (clear_queue demoReg201).1 ≠
      demoReg201.length - ((clear_queue demoReg201).2).length := by
  decide

/-- C4 (amended): on every registry holding at most 200 records — the
bound every persist re-establishes — `clear_queue` removes exactly the
jobs whose status is `queued` or `error`, never removes a `running` or
`done` job, and returns a count equal to the decrease in registry size. -/
theorem c4_clear_queue_bounded (reg : Registry) (h : reg.length ≤ 200) :
    (∀ kv ∈ reg, (kv.2.status = Status.queued ∨ kv.2.status = Status.error) →
      kv ∉ (clear_queue reg).2) ∧
    (∀ kv ∈ reg, (kv.2.status = Status.running ∨ kv.2.status = Status.done) →
      kv ∈ (clear_queue reg).2) ∧
    ((clear_queue reg).2).Sublist reg ∧
    (clear_queue reg).1 = reg.length - ((clear_queue reg).2).length := by
  have hkept : (clear_queue reg).2 = reg.filter (fun kv =>
      !(kv.2.status == Status.queued || kv.2.status == Status.error)) := by
    show save_jobs _ = _
    exact save_jobs_of_le (Nat.le_trans (List.length_filter_le _ reg) h)
  have hcnt : (clear_queue reg).1 = (reg.filter (fun kv =>
      kv.2.status == Status.queued || kv.2.status == Status.error)).length := rfl
  refine ⟨?_, ?_, ?_, ?_⟩
  · intro kv hkv hst hmem
    rw [hkept] at hmem
    have := (List.mem_filter.mp hmem).2
    rcases hst with hq | he
    · simp [hq] at this
    · simp [he] at this
  · intro kv hkv hst
    rw [hkept]
    refine List.mem_filter.mpr ⟨hkv, ?_⟩
    rcases hst with hr | hd
    · simp [hr]
    · simp [hd]
  · rw [hkept]
    exact List.filter_sublist reg
  · rw [hkept, hcnt]
    have := List.length_eq_length_filter_add
      (l := reg) (fun kv => kv.2.status == Status.queued || kv.2.status == Status.error)
    omega

/-! ## Worker update traces (claim C1) -/

/-- Whether an observed status is terminal (`done` or `error`). -/
def isTerminal : Option Status → Bool
  | some .done => true
  | some .error => true
  | _ => false

/-- Whether an `update_job` call sets the status field to a terminal
state. -/
def setsTerminal (u : JobUpdate) : Bool :=
  match u.status with
  | some .done => true
  | some .error => true
  | _ => false

/-- One `update_job` call recorded in a worker's trace. -/
structure JobOp where
  id : String
  upd : JobUpdate
  now : Nat
deriving DecidableEq, Repr

/-- Apply a trace of `update_job` calls to the registry in order.  The
three workers `_run_generate`, `_run_chat` and `_run_series` touch the
job registry through `update_job` only. -/
def applyOps (reg : Registry) : List JobOp → Registry
  | [] => reg
  | op :: rest => applyOps (update_job reg op.id op.upd op.now) rest

/-- The status of job `j` after the first `n` calls of a trace. -/
def statusAfter (reg : Registry) (ops : List JobOp) (j : String) (n : Nat) : Option Status :=
  jobStatus (applyOps reg (ops.take n)) j

/-- Claim C1's property for one worker trace: once the status of job
`j` is terminal at some point of the trace, every later point observes
the same status — no later registry operation changes the field. -/
def StatusSticky (reg : Registry) (ops : List JobOp) (j : String) : Prop :=
  ∀ i k, i ≤ k → isTerminal (statusAfter reg ops j i) = true →
    statusAfter reg ops j k = statusAfter reg ops j i

/-- Trace soundness check: after any call that sets a terminal status,
no later call on the same job id sets the status field at all. -/
def opsMonoOK : List JobOp → Bool
  | [] => true
  | op :: rest =>
    (!(setsTerminal op.upd) ||
      rest.all (fun o => o.id != op.id || o.upd.status.isNone))
      && opsMonoOK rest

theorem length_setJob (reg : Registry) (j : String) (job : Job) :
    (setJob reg j job).length = reg.length := by
  induction reg with
  | nil => rfl
  | cons kv rest ih =>
    by_cases h : kv.1 == j
    · simp [setJob, h]
    · simp only [setJob]
      rw [if_neg h]
      simp [ih]

theorem update_job_of_absent {reg : Registry} {i : String}
    (hl : lookupJob reg i = none) (u : JobUpdate) (now : Nat) :
    update_job reg i u now = reg := by
  unfold update_job
  rw [hl]

theorem update_job_of_found {reg : Registry} {i : String} {job : Job}
    (hl : lookupJob reg i = some job) (u : JobUpdate) (now : Nat) :
    update_job reg i u now = save_jobs (setJob reg i (applyUpdate job u now)) := by
  unfold update_job
  rw [hl]

theorem length_update_job {reg : Registry} (hlen : reg.length ≤ 200)
    (j : String) (u : JobUpdate) (now : Nat) :
    (update_job reg j u now).length = reg.length := by
  cases hl : lookupJob reg j with
  | none => rw [update_job_of_absent hl]
  | some job =>
    rw [update_job_of_found hl,
      save_jobs_of_le (by rw [length_setJob]; exact hlen), length_setJob]

theorem lookupJob_setJob_ne {reg : Registry} {i j : String} (h : j ≠ i)
    (job : Job) : lookupJob (setJob reg i job) j = lookupJob reg j := by
  induction reg with
  | nil => rfl
  | cons kv rest ih =>
    by_cases hk : kv.1 == i
    · have hk' : kv.1 = i := by simpa using hk
      simp only [setJob, if_pos hk]
      unfold lookupJob
      simp only [List.find?]
      have h1 : (i == j) = false := by simp [Ne.symm h]
      have h2 : (kv.1 == j) = false := by simp [hk', Ne.symm h]
      simp [h1, h2]
    · simp only [setJob, if_neg hk]
      unfold lookupJob
      simp only [List.find?]
      by_cases hj : kv.1 == j
      · simp [hj]
      · simp only [hj]
        exact ih

theorem lookupJob_setJob_self {reg : Registry} {i : String} {job0 : Job}
    (hfound : lookupJob reg i = some job0) (job : Job) :
    lookupJob (setJob reg i job) i = some job := by
  induction reg with
  | nil => simp [lookupJob] at hfound
  | cons kv rest ih =>
    cases hk : (kv.1 == i) with
    | true =>
      simp only [setJob, hk, if_true]
      simp [lookupJob, List.find?]
    | false =>
      simp only [setJob, hk, if_false]
      unfold lookupJob at hfound ⊢
      simp only [List.find?, hk] at hfound ⊢
      exact ih hfound

theorem jobStatus_update_ne {reg : Registry} (hlen : reg.length ≤ 200)
    {i j : String} (h : j ≠ i) (u : JobUpdate) (now : Nat) :
    jobStatus (update_job reg i u now) j = jobStatus reg j := by
  cases hl : lookupJob reg i with
  | none => rw [update_job_of_absent hl]
  | some job =>
    rw [update_job_of_found hl]
    unfold jobStatus
    rw [save_jobs_of_le (by rw [length_setJob]; exact hlen),
      lookupJob_setJob_ne h]

theorem jobStatus_update_self {reg : Registry} (hlen : reg.length ≤ 200)
    {i : String} {job : Job} (hl : lookupJob reg i = some job)
    (u : JobUpdate) (now : Nat) :
    jobStatus (update_job reg i u now) i = some (u.status.getD job.status) := by
  rw [update_job_of_found hl]
  unfold jobStatus
  rw [save_jobs_of_le (by rw [length_setJob]; exact hlen),
    lookupJob_setJob_self hl]
  rfl

theorem jobStatus_update_status_none {reg : Registry} (hlen : reg.length ≤ 200)
    {i : String} {u : JobUpdate} (hnone : u.status = none) (now : Nat)
    (j : String) :
    jobStatus (update_job reg i u now) j = jobStatus reg j := by
  by_cases hij : j = i
  · subst hij
    cases hl : lookupJob reg j with
    | none => rw [update_job_of_absent hl]
    | some job =>
      rw [jobStatus_update_self hlen hl, hnone]
      unfold jobStatus
      rw [hl]
      rfl
  · exact jobStatus_update_ne hlen hij u now

theorem statusAfter_zero (reg : Registry) (ops : List JobOp) (j : String) :
    statusAfter reg ops j 0 = jobStatus reg j := rfl

theorem statusAfter_nil (reg : Registry) (j : String) (n : Nat) :
    statusAfter reg [] j n = jobStatus reg j := by
  unfold statusAfter
  rw [List.take_nil]
  rfl

theorem statusAfter_cons (reg : Registry) (op : JobOp) (ops : List JobOp)
    (j : String) (n : Nat) :
    statusAfter reg (op :: ops) j (n + 1) =
      statusAfter (update_job reg op.id op.upd op.now) ops j n := rfl

/-- A stretch of trace whose calls never set the status of `j` leaves
the observed status of `j` unchanged at every point. -/
theorem statusAfter_const_of_no_status {reg : Registry} (hlen : reg.length ≤ 200)
    {ops : List JobOp} {j : String}
    (hno : ∀ op ∈ ops, op.id = j → op.upd.status = none) :
    ∀ n, statusAfter reg ops j n = jobStatus reg j := by
  induction ops generalizing reg with
  | nil => intro n; exact statusAfter_nil reg j n
  | cons op rest ih =>
    intro n
    cases n with
    | zero => rfl
    | succ n =>
      rw [statusAfter_cons]
      have hstep : jobStatus (update_job reg op.id op.upd op.now) j = jobStatus reg j := by
        by_cases hid : op.id = j
        · exact jobStatus_update_status_none hlen
            (hno op (List.mem_cons_self op rest) hid) op.now j
        · exact jobStatus_update_ne hlen (fun h => hid h.symm) op.upd op.now
      rw [ih (by rw [length_update_job hlen]; exact hlen)
        (fun o ho hid => hno o (List.mem_cons_of_mem op ho) hid) n, hstep]

/-- The bridge from the decidable trace check to claim C1's property:
a trace passing `opsMonoOK`, started on a bounded registry where job
`j` is not yet terminal, keeps the status of `j` unchanged from the
first point it is observed terminal. -/
theorem statusSticky_of_opsMonoOK {reg : Registry} (hlen : reg.length ≤ 200)
    {ops : List JobOp} (hOK : opsMonoOK ops = true) {j : String}
    (h0 : isTerminal (jobStatus reg j) = false) : StatusSticky reg ops j := by
  induction ops generalizing reg with
  | nil =>
    intro i k _ hterm
    rw [statusAfter_nil] at hterm
    rw [hterm] at h0
    cases h0
  | cons op rest ih =>
    unfold opsMonoOK at hOK
    rw [Bool.and_eq_true] at hOK
    obtain ⟨hOK1, hOKrest⟩ := hOK
    have hlen' : (update_job reg op.id op.upd op.now).length ≤ 200 := by
      rw [length_update_job hlen]; exact hlen
    by_cases hcase : op.id = j ∧ setsTerminal op.upd = true
    · obtain ⟨hid, hterm⟩ := hcase
      rw [hterm] at hOK1
      simp only [Bool.not_true, Bool.false_or, List.all_eq_true] at hOK1
      have hno : ∀ o ∈ rest, o.id = j → o.upd.status = none := by
        intro o ho hoid
        have := hOK1 o ho
        rw [Bool.or_eq_true] at this
        rcases this with hne | hnone
        · rw [bne_iff_ne] at hne
          exact absurd (hoid.trans hid.symm) hne
        · exact Option.isNone_iff_eq_none.mp hnone
      have hconst : ∀ n, statusAfter (update_job reg op.id op.upd op.now) rest j n =
          jobStatus (update_job reg op.id op.upd op.now) j :=
        statusAfter_const_of_no_status hlen' hno
      intro i k hik htermi
      cases i with
      | zero =>
        rw [statusAfter_zero] at htermi
        rw [htermi] at h0
        cases h0
      | succ i =>
        have hk : ∃ k', k = k' + 1 := ⟨k - 1, by omega⟩
        obtain ⟨k', rfl⟩ := hk
        rw [statusAfter_cons, statusAfter_cons, hconst, hconst]
    · have h0' : isTerminal (jobStatus (update_job reg op.id op.upd op.now) j) = false := by
        by_cases hid : op.id = j
        · have hterm : setsTerminal op.upd = false := by
            rcases Bool.eq_false_or_eq_true (setsTerminal op.upd) with ht | hf
            · exact absurd ⟨hid, ht⟩ hcase
            · exact hf
          cases hst : op.upd.status with
          | none =>
            rw [jobStatus_update_status_none hlen hst op.now j]
            exact h0
          | some s =>
            subst hid
            cases hl : lookupJob reg op.id with
            | none => rw [update_job_of_absent hl]; exact h0
            | some job =>
              rw [jobStatus_update_self hlen hl, hst]
              cases s with
              | queued => rfl
              | running => rfl
              | done => rw [setsTerminal, hst] at hterm; cases hterm
              | error => rw [setsTerminal, hst] at hterm; cases hterm
        · rw [jobStatus_update_ne hlen (fun h => hid h.symm) op.upd op.now]
          exact h0
      have hrest := ih hlen' hOKrest h0'
      intro i k hik htermi
      cases i with
      | zero =>
        rw [statusAfter_zero] at htermi
        rw [htermi] at h0
        cases h0
      | succ i =>
        have hk : ∃ k', k = k' + 1 := ⟨k - 1, by omega⟩
        obtain ⟨k', rfl⟩ := hk
        rw [statusAfter_cons] at htermi ⊢
        rw [statusAfter_cons]
        exact hrest i k' (by omega) htermi

/-- How one run of `_run_generate` (src/app.py lines 780-824) goes.
Each failure constructor is one point of the worker body where an
exception can arise (or voice resolution can come back empty); the
handler then issues the single `status=error` update. -/
inductive GenOutcome where
  | connectFail (msg : String)
  | voiceNotFound
  | scriptFail (msg : String)
  | audioFail (msg : String)
  | success
deriving DecidableEq, Repr

/-- Shorthand for one recorded `update_job` call. -/
def jop (id : String) (u : JobUpdate) (now : Nat) : JobOp :=
  ⟨id, u, now⟩

/-- An update that only moves the progress message. -/
def progressOp (id : String) (p : String) (now : Nat) : JobOp :=
  jop id { JobUpdate.empty with progress := some p } now

/-- The terminal `status=error` update a worker's handler issues. -/
def errorOp (id : String) (msg : String) (now : Nat) : JobOp :=
  jop id { JobUpdate.empty with
           status := some .error
           error := some msg } now

/-- The terminal `status=done` update a worker issues on success. -/
def doneOp (id : String) (p : String) (now : Nat) : JobOp :=
  jop id { JobUpdate.empty with
           status := some .done
           progress := some p
           result := some "episode" } now

/-- The opening `status=running` update of a worker. -/
def runningOp (id : String) (p : String) (now : Nat) : JobOp :=
  jop id { JobUpdate.empty with
           status := some .running
           progress := some p } now

/-- The sequence of `update_job` calls `_run_generate` performs on its
job for a given outcome (src/app.py lines 780-824).  `nsegs` is the
script segment count interpolated into the progress message. -/
def runGenerateOps (jid : String) (is_trailer : Bool) (o : GenOutcome)
    (nsegs t : Nat) : List JobOp :=
  runningOp jid "Connecting to voice service..." t ::
  match o with
  | .connectFail msg => [errorOp jid msg (t + 1)]
  | .voiceNotFound => [errorOp jid "Voice not found" (t + 1)]
  | .scriptFail msg =>
    [progressOp jid (if is_trailer then "Building trailer..."
        else "Writing script - 1-2 minutes...") (t + 1),
     errorOp jid msg (t + 2)]
  | .audioFail msg =>
    [progressOp jid (if is_trailer then "Building trailer..."
        else "Writing script - 1-2 minutes...") (t + 1),
     progressOp jid ("Generating audio (" ++ toString nsegs ++ " segments)...") (t + 2),
     errorOp jid msg (t + 3)]
  | .success =>
    [progressOp jid (if is_trailer then "Building trailer..."
        else "Writing script - 1-2 minutes...") (t + 1),
     progressOp jid ("Generating audio (" ++ toString nsegs ++ " segments)...") (t + 2),
     doneOp jid "Complete" (t + 3)]

/-- How one run of `_run_chat` (src/app.py lines 827-869) goes. -/
inductive ChatOutcome where
  | topicFail (msg : String)
  | scriptFail (msg : String)
  | connectFail (msg : String)
  | voiceNotFound
  | audioFail (msg : String)
  | success
deriving DecidableEq, Repr

/-- The sequence of `update_job` calls `_run_chat` performs on its job
for a given outcome (src/app.py lines 827-869): topic generation, then
script synthesis, then voice resolution, then audio production. -/
def runChatOps (jid : String) (o : ChatOutcome) (nsegs t : Nat) : List JobOp :=
  runningOp jid "Generating topic from your message..." t ::
  match o with
  | .topicFail msg => [errorOp jid msg (t + 1)]
  | .scriptFail msg =>
    [progressOp jid "Writing script - 1-2 minutes..." (t + 1),
     errorOp jid msg (t + 2)]
  | .connectFail msg =>
    [progressOp jid "Writing script - 1-2 minutes..." (t + 1),
     progressOp jid ("Generating audio (" ++ toString nsegs ++ " segments)...") (t + 2),
     errorOp jid msg (t + 3)]
  | .voiceNotFound =>
    [progressOp jid "Writing script - 1-2 minutes..." (t + 1),
     progressOp jid ("Generating audio (" ++ toString nsegs ++ " segments)...") (t + 2),
     errorOp jid "Voice not found" (t + 3)]
  | .audioFail msg =>
    [progressOp jid "Writing script - 1-2 minutes..." (t + 1),
     progressOp jid ("Generating audio (" ++ toString nsegs ++ " segments)...") (t + 2),
     errorOp jid msg (t + 3)]
  | .success =>
    [progressOp jid "Writing script - 1-2 minutes..." (t + 1),
     progressOp jid ("Generating audio (" ++ toString nsegs ++ " segments)...") (t + 2),
     doneOp jid "Complete" (t + 3)]

/-- How the production of one series episode goes inside `_run_series`
(src/app.py lines 458-514). -/
inductive EpOutcome where
  | scriptFail (msg : String)
  | connectFail (msg : String)
  | voiceNotFound
  | audioFail (msg : String)
  | success
deriving DecidableEq, Repr

/-- The `update_job` calls one loop iteration of `_run_series` performs
on the episode's job (src/app.py lines 458-514).  A failure is caught
by the per-episode handler, which marks only this job `error`; a
missing voice marks it `error` and the loop continues. -/
def runEpisodeOps (jid : String) (epNum total : Nat) (o : EpOutcome)
    (nsegs t : Nat) : List JobOp :=
  runningOp jid ("Episode " ++ toString epNum ++ "/" ++ toString total ++
    ": Writing script...") t ::
  match o with
  | .scriptFail msg => [errorOp jid msg (t + 1)]
  | .connectFail msg =>
    [progressOp jid ("Episode " ++ toString epNum ++ "/" ++ toString total ++
        ": Generating audio (" ++ toString nsegs ++ " segments)...") (t + 1),
     errorOp jid msg (t + 2)]
  | .voiceNotFound =>
    [progressOp jid ("Episode " ++ toString epNum ++ "/" ++ toString total ++
        ": Generating audio (" ++ toString nsegs ++ " segments)...") (t + 1),
     errorOp jid "Voice not found" (t + 2)]
  | .audioFail msg =>
    [progressOp jid ("Episode " ++ toString epNum ++ "/" ++ toString total ++
        ": Generating audio (" ++ toString nsegs ++ " segments)...") (t + 1),
     errorOp jid msg (t + 2)]
  | .success =>
    [progressOp jid ("Episode " ++ toString epNum ++ "/" ++ toString total ++
        ": Generating audio (" ++ toString nsegs ++ " segments)...") (t + 1),
     doneOp jid ("Episode " ++ toString epNum ++ " complete") (t + 2)]

/-- The `_run_series` loop as a registry trace: one episode segment per
entry of the series' `job_ids` list (paired with the way that episode's
production goes), strictly in order. -/
def runSeriesOpsFrom : Nat → List (String × EpOutcome) → Nat → Nat → Nat → List JobOp
  | _, [], _, _, _ => []
  | i, (jid, o) :: rest, total, nsegs, t =>
    runEpisodeOps jid (i + 1) total o nsegs t ++
      runSeriesOpsFrom (i + 1) rest total nsegs (t + 4)

/-- The `update_job` trace of `_run_series` (src/app.py lines 452-514)
over the zipped list of episode job ids and per-episode outcomes. -/
def runSeriesOps (eps : List (String × EpOutcome)) (nsegs t : Nat) : List JobOp :=
  runSeriesOpsFrom 0 eps eps.length nsegs t

@[simp] theorem setsTerminal_runningOp (id p : String) (now : Nat) :
    setsTerminal (runningOp id p now).upd = false := rfl

@[simp] theorem setsTerminal_progressOp (id p : String) (now : Nat) :
    setsTerminal (progressOp id p now).upd = false := rfl

@[simp] theorem setsTerminal_errorOp (id m : String) (now : Nat) :
    setsTerminal (errorOp id m now).upd = true := rfl

@[simp] theorem setsTerminal_doneOp (id p : String) (now : Nat) :
    setsTerminal (doneOp id p now).upd = true := rfl

@[simp] theorem id_runningOp (id p : String) (now : Nat) :
    (runningOp id p now).id = id := rfl

@[simp] theorem id_progressOp (id p : String) (now : Nat) :
    (progressOp id p now).id = id := rfl

@[simp] theorem id_errorOp (id m : String) (now : Nat) :
    (errorOp id m now).id = id := rfl

@[simp] theorem id_doneOp (id p : String) (now : Nat) :
    (doneOp id p now).id = id := rfl

theorem opsMonoOK_runGenerateOps (jid : String) (is_trailer : Bool)
    (o : GenOutcome) (nsegs t : Nat) :
    opsMonoOK (runGenerateOps jid is_trailer o nsegs t) = true := by
  cases o <;> simp [runGenerateOps, opsMonoOK]

theorem opsMonoOK_runChatOps (jid : String) (o : ChatOutcome) (nsegs t : Nat) :
    opsMonoOK (runChatOps jid o nsegs t) = true := by
  cases o <;> simp [runChatOps, opsMonoOK]

theorem opsMonoOK_runEpisodeOps (jid : String) (epNum total : Nat)
    (o : EpOutcome) (nsegs t : Nat) :
    opsMonoOK (runEpisodeOps jid epNum total o nsegs t) = true := by
  cases o <;> simp [runEpisodeOps, opsMonoOK]

theorem runEpisodeOps_ids (jid : String) (epNum total : Nat) (o : EpOutcome)
    (nsegs t : Nat) :
    (runEpisodeOps jid epNum total o nsegs t).all (fun op => op.id == jid) = true := by
  cases o <;> simp [runEpisodeOps]

theorem opsMonoOK_append {l₁ l₂ : List JobOp} (h₁ : opsMonoOK l₁ = true)
    (h₂ : opsMonoOK l₂ = true)
    (hsep : ∀ op ∈ l₁, ∀ o ∈ l₂, o.id ≠ op.id) :
    opsMonoOK (l₁ ++ l₂) = true := by
  induction l₁ with
  | nil => simpa using h₂
  | cons op rest ih =>
    simp only [opsMonoOK, Bool.and_eq_true] at h₁
    obtain ⟨h11, h12⟩ := h₁
    simp only [List.cons_append, opsMonoOK, Bool.and_eq_true]
    refine ⟨?_, ih h12 (fun op' hop' o ho => hsep op' (List.mem_cons_of_mem _ hop') o ho)⟩
    rcases Bool.eq_false_or_eq_true (setsTerminal op.upd) with ht | hf
    · rw [ht] at h11 ⊢
      simp only [Bool.not_true, Bool.false_or, List.all_eq_true] at h11 ⊢
      intro o ho
      rcases List.mem_append.mp ho with hr | h2
      · exact h11 o hr
      · have hne := hsep op (List.mem_cons_self op rest) o h2
        simp [bne_iff_ne, hne]
    · rw [hf]
      simp

theorem mem_runSeriesOpsFrom_id {eps : List (String × EpOutcome)}
    {i total nsegs t : Nat} {op : JobOp}
    (h : op ∈ runSeriesOpsFrom i eps total nsegs t) :
    op.id ∈ eps.map Prod.fst := by
  induction eps generalizing i t with
  | nil => cases h
  | cons e rest ih =>
    obtain ⟨jid, o⟩ := e
    simp only [runSeriesOpsFrom] at h
    rcases List.mem_append.mp h with h1 | h2
    · have hall := runEpisodeOps_ids jid (i + 1) total o nsegs t
      rw [List.all_eq_true] at hall
      have hid := hall op h1
      rw [beq_iff_eq] at hid
      rw [List.map_cons, hid]
      exact List.mem_cons_self _ _
    · exact List.mem_cons_of_mem _ (ih h2)

theorem opsMonoOK_runSeriesOpsFrom (eps : List (String × EpOutcome))
    (hnd : (eps.map Prod.fst).Nodup) (i total nsegs t : Nat) :
    opsMonoOK (runSeriesOpsFrom i eps total nsegs t) = true := by
  induction eps generalizing i t with
  | nil => rfl
  | cons e rest ih =>
    obtain ⟨jid, o⟩ := e
    rw [List.map_cons, List.nodup_cons] at hnd
    simp only [runSeriesOpsFrom]
    refine opsMonoOK_append (opsMonoOK_runEpisodeOps jid (i + 1) total o nsegs t)
      (ih hnd.2 (i + 1) (t + 4)) ?_
    intro op hop o' ho'
    have hall := runEpisodeOps_ids jid (i + 1) total o nsegs t
    rw [List.all_eq_true] at hall
    have hid := hall op hop
    rw [beq_iff_eq] at hid
    rw [hid]
    intro hcontra
    exact hnd.1 (hcontra ▸ mem_runSeriesOpsFrom_id ho')

/-- C1: status transitions of jobs are monotonic.  Started on a bounded
registry where the job is not yet terminal, every trace of registry
operations that `_run_generate`, `_run_chat` or `_run_series` can
perform — under every failure scenario — satisfies `StatusSticky`: once
a job's status is `done` or `error`, no later registry operation of the
worker changes that job's status field again. -/
theorem c1_status_transitions_monotonic :
    (∀ (reg : Registry) (jid : String) (is_trailer : Bool) (o : GenOutcome)
        (nsegs t : Nat), reg.length ≤ 200 →
      isTerminal (jobStatus reg jid) = false →
      StatusSticky reg (runGenerateOps jid is_trailer o nsegs t) jid) ∧
    (∀ (reg : Registry) (jid : String) (o : ChatOutcome) (nsegs t : Nat),
      reg.length ≤ 200 →
      isTerminal (jobStatus reg jid) = false →
      StatusSticky reg (runChatOps jid o nsegs t) jid) ∧
    (∀ (reg : Registry) (eps : List (String × EpOutcome)) (nsegs t : Nat)
        (j : String), reg.length ≤ 200 → (eps.map Prod.fst).Nodup →
      isTerminal (jobStatus reg j) = false →
      StatusSticky reg (runSeriesOps eps nsegs t) j) := by
  refine ⟨?_, ?_, ?_⟩
  · intro reg jid is_trailer o nsegs t hlen h0
    exact statusSticky_of_opsMonoOK hlen (opsMonoOK_runGenerateOps jid is_trailer o nsegs t) h0
  · intro reg jid o nsegs t hlen h0
    exact statusSticky_of_opsMonoOK hlen (opsMonoOK_runChatOps jid o nsegs t) h0
  · intro reg eps nsegs t j hlen hnd h0
    exact statusSticky_of_opsMonoOK hlen
      (opsMonoOK_runSeriesOpsFrom eps hnd 0 eps.length nsegs t) h0

/-- A small concrete registry of three queued jobs. -/
def c1demoReg : Registry :=
  [("a", mkJob "a" "generate" 0 none none),
   ("b", mkJob "b" "series_ep" 1 none none),
   ("c", mkJob "c" "series_ep" 2 none none)]

theorem c1_status_transitions_monotonic_witness :
    (c1demoReg.length ≤ 200 ∧ isTerminal (jobStatus c1demoReg "a") = false ∧
      StatusSticky c1demoReg (runGenerateOps "a" false .success 12 0) "a") ∧
    (StatusSticky c1demoReg (runChatOps "a" (.scriptFail "boom") 12 0) "a") ∧
    ((([("b", EpOutcome.success), ("c", EpOutcome.scriptFail "x")] :
        List (String × EpOutcome)).map Prod.fst).Nodup ∧
      StatusSticky c1demoReg
        (runSeriesOps [("b", .success), ("c", .scriptFail "x")] 12 0) "b") :=
  ⟨⟨by decide, by decide,
     c1_status_transitions_monotonic.1 c1demoReg "a" false .success 12 0
       (by decide) (by decide)⟩,
   c1_status_transitions_monotonic.2.1 c1demoReg "a" (.scriptFail "boom") 12 0
     (by decide) (by decide),
   ⟨by decide,
    c1_status_transitions_monotonic.2.2 c1demoReg
      [("b", .success), ("c", .scriptFail "x")] 12 0 "b"
      (by decide) (by decide) (by decide)⟩⟩

/-! ## Series coordination (claim C2) -/

/-- One record of `series.json`, with the fields set by
`api_series_create` (src/app.py lines 1577-1590) and mutated by
`_run_create_series` and `_run_series`.  The outlined episode list is
represented by the per-episode production outcomes, since episode
topics are opaque to the coordinator. -/
structure SeriesEntry where
  id : String
  title : String
  num_episodes : Nat
  status : String
  created_at : Nat
  episodes : List EpOutcome
  job_ids : List String
  total : Nat
  completed : Nat
  error : Option String
deriving DecidableEq, Repr

/-- The persistent state the series workers touch: the jobs file and
the series file. -/
structure AppState where
  jobs : Registry
  series : List SeriesEntry
deriving DecidableEq, Repr

/-- `next((s for s in series_list if s["id"] == sid), None)`. -/
def findSeries (l : List SeriesEntry) (sid : String) : Option SeriesEntry :=
  List.find? (fun s => s.id == sid) l

/-- Mutate the first entry with the given id in place (the Python code
mutates the object `next` found and rewrites the whole list via
`save_series`). -/
def updateSeries : List SeriesEntry → String → (SeriesEntry → SeriesEntry) → List SeriesEntry
  | [], _, _ => []
  | s :: rest, sid, f =>
    if s.id == sid then f s :: rest else s :: updateSeries rest sid f

/-- One iteration of the `_run_series` loop (src/app.py lines 458-514):
the job registry sees exactly the `runEpisodeOps` trace of this
episode, and on success the series' `completed` counter is reloaded,
incremented and saved. -/
def runSeriesStep (sid jid : String) (epNum total : Nat) (o : EpOutcome)
    (nsegs t : Nat) (st : AppState) : AppState :=
  { jobs := applyOps st.jobs (runEpisodeOps jid epNum total o nsegs t)
    series := match o with
      | .success => updateSeries st.series sid
          (fun s => { s with completed := s.completed + 1 })
      | _ => st.series }

/-- The episode loop of `_run_series`, strictly in order. -/
def run_series_loop (sid : String) :
    Nat → List (String × EpOutcome) → Nat → Nat → Nat → AppState → AppState
  | _, [], _, _, _, st => st
  | i, (jid, o) :: rest, total, nsegs, t, st =>
    run_series_loop sid (i + 1) rest total nsegs (t + 4)
      (runSeriesStep sid jid (i + 1) total o nsegs t st)

/-- `_run_series` (src/app.py lines 452-514): look the series entry up
once, then produce the episodes sequentially, pairing episode `i` with
`job_ids[i]` (the coordinator creates both lists with equal length). -/
def run_series (sid : String) (episodes : List EpOutcome) (nsegs t : Nat)
    (st : AppState) : AppState :=
  match findSeries st.series sid with
  | none => st
  | some entry =>
    run_series_loop sid 0 (entry.job_ids.zip episodes) episodes.length nsegs t st

/-- The `create_job` calls of `_run_create_series` (src/app.py lines
882-885): one `series_ep` job per outlined episode, numbered from 1.
The fresh uuid-derived ids are supplied as a list. -/
def createSeriesJobs : Registry → List String → Nat → String → Nat → Registry
  | reg, [], _, _, _ => reg
  | reg, jid :: rest, i, sid, t =>
    createSeriesJobs (create_job reg jid "series_ep" t (some sid) (some (i + 1)))
      rest (i + 1) sid t

/-- `_run_create_series` (src/app.py lines 872-911): mark the series
`outlining`; on outline failure record `error` with the message and
stop; otherwise create one job per episode, store the outline, the job
ids, `total` and `completed := 0`, mark it `producing`, run
`_run_series`, and finally mark the series `done`. -/
def run_create_series (sid : String) (outline : Except String (List EpOutcome))
    (freshIds : List String) (nsegs t : Nat) (st : AppState) : AppState :=
  match findSeries st.series sid with
  | none => st
  | some _ =>
    let st1 : AppState := { st with
      series := updateSeries st.series sid (fun s => { s with status := "outlining" }) }
    match outline with
    | .error msg =>
      { st1 with series := updateSeries st1.series sid (fun s =>
          { s with
            status := "error"
            error := some msg }) }
    | .ok episodes =>
      let jids := freshIds.take episodes.length
      let st2 : AppState := { st1 with
        jobs := createSeriesJobs st1.jobs jids 0 sid t }
      let st3 : AppState := { st2 with series := updateSeries st2.series sid (fun s =>
          { s with
            episodes := episodes
            job_ids := jids
            status := "producing"
            total := episodes.length
            completed := 0 }) }
      let st4 := run_series sid episodes nsegs (t + 1) st3
      { st4 with
        series := updateSeries st4.series sid (fun s => { s with status := "done" }) }

/-- The state just after `api_series_create` persisted a fresh 3-episode
series entry, before the coordinator thread runs. -/
def c2InitialState : AppState :=
  { jobs := []
    series := [{ id := "s1", title := "T", num_episodes := 3, status := "queued",
                 created_at := 0, episodes := [], job_ids := [], total := 3,
                 completed := 0, error := none }] }

/-- The final state of a 3-episode series run in which only episode 2's
script synthesis raises (with message `msg`). -/
def c2FinalState (msg : String) : AppState :=
  run_create_series "s1" (.ok [.success, .scriptFail msg, .success])
    ["j1", "j2", "j3"] 12 0 c2InitialState

/-- C2: for a 3-episode series where the script-synthesis collaborator
raises on episode 2 only (here with message "boom"), episodes 1 and 3
still end `done`, the series' `completed` counter ends at 2, the
series status ends `done` (not `error`), and episode 2's job ends
`error` carrying the exception message. -/
theorem c2_partial_series_failure :
    jobStatus (c2FinalState "boom").jobs "j1" = some .done ∧
    jobStatus (c2FinalState "boom").jobs "j3" = some .done ∧
    jobStatus (c2FinalState "boom").jobs "j2" = some .error ∧
    (lookupJob (c2FinalState "boom").jobs "j2").map (fun j => j.error) =
      some (some "boom") ∧
    (findSeries (c2FinalState "boom").series "s1").map (fun s => s.completed) =
      some 2 ∧
    (findSeries (c2FinalState "boom").series "s1").map (fun s => s.status) =
      some "done" := by
  decide

theorem c3_retention_after_persist_witness :
    (demoReg201.map Prod.fst).Nodup ∧ demoReg201.length = 201 ∧
    (∃ kv ∈ demoReg201, kv ∉ save_jobs demoReg201 ∧
      (∀ kv' ∈ demoReg201, kv' ≠ kv → kv' ∈ save_jobs demoReg201) ∧
      (∀ kv' ∈ demoReg201, kv.2.created_at ≤ kv'.2.created_at)) :=
  ⟨by decide, by decide,
   (c3_retention_after_persist demoReg201 (by decide)).2 (by decide)⟩

/-- A small registry with one job in each status. -/
def c4demoReg : Registry :=
  [("a", mkJob "a" "generate" 0 none none),
   ("b", { mkJob "b" "generate" 1 none none with status := Status.running }),
   ("c", { mkJob "c" "generate" 2 none none with status := Status.done }),
   ("d", { mkJob "d" "generate" 3 none none with status := Status.error })]

theorem c4_clear_queue_bounded_witness :
    c4demoReg.length ≤ 200 ∧
    ((∀ kv ∈ c4demoReg, (kv.2.status = Status.queued ∨ kv.2.status = Status.error) →
        kv ∉ (clear_queue c4demoReg).2) ∧
      (∀ kv ∈ c4demoReg, (kv.2.status = Status.running ∨ kv.2.status = Status.done) →
        kv ∈ (clear_queue c4demoReg).2) ∧
      ((clear_queue c4demoReg).2).Sublist c4demoReg ∧
      (clear_queue c4demoReg).1 =
        c4demoReg.length - ((clear_queue c4demoReg).2).length) :=
  ⟨by decide, c4_clear_queue_bounded c4demoReg (by decide)⟩

/-! ## Engagement log (claims C5, C6, C10) -/

/-- One record of `engagement_log.json`, keeping the fields
`get_engagement_summary` consults (`ts` and `episode_id` are ignored by
it); a missing `pct` is read back as 0 via `e.get("pct", 0)`. -/
structure EngEvent where
  event_type : String
  topic_title : String
  pct : Nat
deriving DecidableEq, Repr

/-- The per-topic signals accumulated by `get_engagement_summary`
(src/app.py lines 57-77), with the defaultdict's initial values. -/
structure Signals where
  previewed : Bool
  commissioned : Bool
  dismissed : Bool
  max_pct : Nat
  listen_complete : Bool
deriving DecidableEq, Repr

/-- The defaultdict's fresh value (src/app.py lines 58-61). -/
def initSignals : Signals where
  previewed := false
  commissioned := false
  dismissed := false
  max_pct := 0
  listen_complete := false

/-- The event dispatch of the aggregation loop (src/app.py lines 63-77). -/
def applyEvent (s : Signals) (e : EngEvent) : Signals :=
  if e.event_type == "preview_started" then { s with previewed := true }
  else if e.event_type == "commissioned" then { s with commissioned := true }
  else if e.event_type == "dismissed" then { s with dismissed := true }
  else if e.event_type == "play_pct" then { s with max_pct := max s.max_pct e.pct }
  else if e.event_type == "listen_complete" then
    { s with listen_complete := true, max_pct := 100 }
  else s

/-- The signals accumulated for one topic title: the per-title
subsequence of the single-pass fold (events with an empty title are
skipped by the loop, and the empty string is never a key). -/
def signalsOf (events : List EngEvent) (t : String) : Signals :=
  if t == "" then initSignals
  else (events.filter (fun e => e.topic_title == t)).foldl applyEvent initSignals

/-- First-occurrence deduplication: the iteration order of a Python
dict is key-insertion order. -/
def dedupFirst : List String → List String
  | [] => []
  | x :: xs => x :: (dedupFirst xs).filter (fun y => y != x)

/-- The keys of `topic_signals` in iteration order: distinct nonempty
topic titles in order of first occurrence. -/
def orderedTitles (events : List EngEvent) : List String :=
  dedupFirst ((events.map (fun e => e.topic_title)).filter (fun t => t != ""))

/-- The strong-interest test (src/app.py lines 79-80). -/
def strongCond (s : Signals) : Bool :=
  s.listen_complete || decide (s.max_pct ≥ 75)

/-- The untruncated `strong_interest` list (src/app.py lines 79-80). -/
def strong_interest (events : List EngEvent) : List String :=
  (orderedTitles events).filter (fun t => strongCond (signalsOf events t))

/-- The untruncated `moderate_interest` list comprehension (src/app.py
lines 81-83): not dismissed, previewed or max_pct at least 25, and not
already a member of the strong list. -/
def moderate_interest (events : List EngEvent) : List String :=
  (orderedTitles events).filter (fun t =>
    !(signalsOf events t).dismissed &&
    ((signalsOf events t).previewed || decide ((signalsOf events t).max_pct ≥ 25)) &&
    !((strong_interest events).contains t))

/-- The untruncated `dismissed` list (src/app.py line 84). -/
def dismissed_titles (events : List EngEvent) : List String :=
  (orderedTitles events).filter (fun t => (signalsOf events t).dismissed)

/-- Python `l[-n:]`. -/
def lastN (n : Nat) (l : List String) : List String :=
  l.drop (l.length - n)

/-- The return value of `get_engagement_summary` when the log is
nonempty (src/app.py lines 86-90). -/
structure EngagementSummary where
  strong_interest : List String
  moderate_interest : List String
  dismissed : List String
deriving DecidableEq, Repr

/-- `get_engagement_summary` (src/app.py lines 52-90): the empty dict
(`none` here) on an empty event list, otherwise the three buckets
truncated to their last 20/20/30 titles. -/
def get_engagement_summary (events : List EngEvent) : Option EngagementSummary :=
  if events.isEmpty then none
  else some
    { strong_interest := lastN 20 (strong_interest events)
      moderate_interest := lastN 20 (moderate_interest events)
      dismissed := lastN 30 (dismissed_titles events) }

/-- The engagement-log file on disk. -/
inductive EngFile where
  | absent
  | corrupt
  | content (events : List EngEvent)
deriving DecidableEq, Repr

/-- `load_engagement` (src/app.py lines 28-34): an absent or unparsable
file reads as the empty list. -/
def load_engagement : EngFile → List EngEvent
  | .absent => []
  | .corrupt => []
  | .content events => events

theorem mem_dedupFirst {l : List String} {a : String} :
    a ∈ dedupFirst l ↔ a ∈ l := by
  induction l with
  | nil => simp [dedupFirst]
  | cons x xs ih =>
    by_cases hax : a = x
    · subst hax
      simp [dedupFirst]
    · simp only [dedupFirst, List.mem_cons, List.mem_filter, ih, bne_iff_ne]
      constructor
      · rintro (rfl | ⟨hm, _⟩)
        · exact Or.inl rfl
        · exact Or.inr hm
      · rintro (rfl | hm)
        · exact Or.inl rfl
        · exact Or.inr ⟨hm, hax⟩

theorem mem_orderedTitles {events : List EngEvent} {t : String} :
    t ∈ orderedTitles events ↔ (t ≠ "" ∧ ∃ e ∈ events, e.topic_title = t) := by
  unfold orderedTitles
  rw [mem_dedupFirst]
  simp only [List.mem_filter, List.mem_map, bne_iff_ne]
  constructor
  · rintro ⟨⟨e, he, rfl⟩, hne⟩
    exact ⟨hne, e, he, rfl⟩
  · rintro ⟨hne, e, he, het⟩
    exact ⟨⟨e, he, het⟩, hne⟩

theorem signalsOf_of_not_mem {events : List EngEvent} {t : String}
    (h : t ∉ orderedTitles events) : signalsOf events t = initSignals := by
  by_cases ht : t = ""
  · simp [signalsOf, ht]
  · have hempty : events.filter (fun e => e.topic_title == t) = [] := by
      rw [List.filter_eq_nil_iff]
      intro e he hcontra
      rw [beq_iff_eq] at hcontra
      exact h (mem_orderedTitles.mpr ⟨ht, e, he, hcontra⟩)
    unfold signalsOf
    rw [if_neg (by simpa using ht), hempty]
    rfl

theorem mem_orderedTitles_of_signals {events : List EngEvent} {t : String}
    (h : signalsOf events t ≠ initSignals) : t ∈ orderedTitles events := by
  by_contra hmem
  exact h (signalsOf_of_not_mem hmem)

theorem mem_strong_interest {events : List EngEvent} {t : String} :
    t ∈ strong_interest events ↔ strongCond (signalsOf events t) = true := by
  constructor
  · intro h
    exact (List.mem_filter.mp h).2
  · intro h
    refine List.mem_filter.mpr ⟨?_, h⟩
    refine mem_orderedTitles_of_signals (fun hinit => ?_)
    rw [hinit] at h
    cases h

theorem strongCond_iff {s : Signals} :
    strongCond s = true ↔ (s.listen_complete = true ∨ 75 ≤ s.max_pct) := by
  simp [strongCond]

theorem mem_moderate_interest {events : List EngEvent} {t : String} :
    t ∈ moderate_interest events ↔
      ((signalsOf events t).dismissed = false ∧
       ((signalsOf events t).previewed = true ∨ 25 ≤ (signalsOf events t).max_pct) ∧
       strongCond (signalsOf events t) = false) := by
  unfold moderate_interest
  rw [List.mem_filter]
  constructor
  · rintro ⟨-, hcond⟩
    simp only [Bool.and_eq_true, Bool.not_eq_true', Bool.or_eq_true,
      decide_eq_true_eq] at hcond
    obtain ⟨⟨hdis, hprev⟩, hstr⟩ := hcond
    refine ⟨hdis, hprev, ?_⟩
    rcases Bool.eq_false_or_eq_true (strongCond (signalsOf events t)) with hs | hs
    · rw [← mem_strong_interest] at hs
      have hc : (strong_interest events).contains t = true := List.elem_iff.mpr hs
      rw [hc] at hstr
      cases hstr
    · exact hs
  · rintro ⟨hdis, hprev, hstr⟩
    have hne : signalsOf events t ≠ initSignals := by
      intro hinit
      rw [hinit] at hprev
      simp [initSignals] at hprev
    refine ⟨mem_orderedTitles_of_signals hne, ?_⟩
    simp only [Bool.and_eq_true, Bool.not_eq_true', Bool.or_eq_true,
      decide_eq_true_eq]
    refine ⟨⟨hdis, hprev⟩, ?_⟩
    have : t ∉ strong_interest events := by
      rw [mem_strong_interest, hstr]
      exact fun h => Bool.false_ne_true h
    simp [List.elem_iff, this]

theorem mem_dismissed_titles {events : List EngEvent} {t : String} :
    t ∈ dismissed_titles events ↔ (signalsOf events t).dismissed = true := by
  constructor
  · intro h
    exact (List.mem_filter.mp h).2
  · intro h
    refine List.mem_filter.mpr ⟨?_, h⟩
    refine mem_orderedTitles_of_signals (fun hinit => ?_)
    rw [hinit] at h
    cases h

theorem applyEvent_dismissed_mono {s : Signals} {e : EngEvent}
    (h : s.dismissed = true) : (applyEvent s e).dismissed = true := by
  unfold applyEvent
  split_ifs <;> simp [h]

theorem foldl_dismissed {l : List EngEvent} {s : Signals}
    (h : s.dismissed = true ∨ ∃ e ∈ l, e.event_type = "dismissed") :
    (l.foldl applyEvent s).dismissed = true := by
  induction l generalizing s with
  | nil =>
    rcases h with h | ⟨e, he, -⟩
    · exact h
    · cases he
  | cons e0 rest ih =>
    rw [List.foldl_cons]
    rcases h with h | ⟨e, he, hty⟩
    · exact ih (Or.inl (applyEvent_dismissed_mono h))
    · rcases List.mem_cons.mp he with rfl | he'
      · refine ih (Or.inl ?_)
        simp [applyEvent, hty]
      · exact ih (Or.inr ⟨e, he', hty⟩)

theorem signalsOf_dismissed {events : List EngEvent} {t : String}
    (ht : t ≠ "") (h : ∃ e ∈ events, e.event_type = "dismissed" ∧ e.topic_title = t) :
    (signalsOf events t).dismissed = true := by
  obtain ⟨e, he, hty, htt⟩ := h
  unfold signalsOf
  rw [if_neg (by simpa using ht)]
  refine foldl_dismissed (Or.inr ⟨e, ?_, hty⟩)
  refine List.mem_filter.mpr ⟨he, ?_⟩
  rw [beq_iff_eq]
  exact htt

/-- The concrete two-event log of claim C5. -/
def c5demoEvents : List EngEvent :=
  [⟨"preview_started", "T", 0⟩, ⟨"play_pct", "T", 80⟩]

/-- C5: for every event log, a topic is classified strong interest iff
a listen_complete was observed or its maximum play percentage is at
least 75, and moderate interest iff it is not dismissed, was previewed
or reached play percentage 25, and is not already strong; in
particular, for the log [preview_started("T"), play_pct("T", 80)] the
summary puts "T" in `strong_interest` and not in `moderate_interest`. -/
theorem c5_engagement_classification :
    (∀ (events : List EngEvent) (t : String),
      (t ∈ strong_interest events ↔
        ((signalsOf events t).listen_complete = true ∨
          75 ≤ (signalsOf events t).max_pct)) ∧
      (t ∈ moderate_interest events ↔
        ((signalsOf events t).dismissed = false ∧
         ((signalsOf events t).previewed = true ∨ 25 ≤ (signalsOf events t).max_pct) ∧
         ¬((signalsOf events t).listen_complete = true ∨
            75 ≤ (signalsOf events t).max_pct)))) ∧
    ((get_engagement_summary c5demoEvents).map (fun s =>
        (s.strong_interest.contains "T", s.moderate_interest.contains "T")) =
      some (true, false)) := by
  constructor
  · intro events t
    constructor
    · rw [mem_strong_interest, strongCond_iff]
    · rw [mem_moderate_interest]
      constructor
      · rintro ⟨h1, h2, h3⟩
        refine ⟨h1, h2, fun hc => ?_⟩
        rw [← strongCond_iff, h3] at hc
        cases hc
      · rintro ⟨h1, h2, h3⟩
        refine ⟨h1, h2, ?_⟩
        rcases Bool.eq_false_or_eq_true (strongCond (signalsOf events t)) with hs | hs
        · exact absurd (strongCond_iff.mp hs) h3
        · exact hs
  · decide

/-- The concrete dismissed-then-played log used for claim C6. -/
def c6demoEvents : List EngEvent :=
  [⟨"dismissed", "T", 0⟩, ⟨"play_pct", "T", 90⟩]

/-- C6: a topic with a dismissed event in the log is never placed in
`moderate_interest`, is placed in the dismissed bucket, and is still
classified strong interest whenever a listen_complete was observed or
its maximum play percentage reaches 75: dismissal excludes from
moderate but not from strong. -/
theorem c6_dismissal_asymmetry (events : List EngEvent) (t : String)
    (ht : t ≠ "")
    (h : ∃ e ∈ events, e.event_type = "dismissed" ∧ e.topic_title = t) :
    t ∉ moderate_interest events ∧
    t ∈ dismissed_titles events ∧
    (((signalsOf events t).listen_complete = true ∨
        75 ≤ (signalsOf events t).max_pct) →
      t ∈ strong_interest events) := by
  have hdis := signalsOf_dismissed ht h
  refine ⟨?_, mem_dismissed_titles.mpr hdis, ?_⟩
  · intro hmem
    have hfalse := (mem_moderate_interest.mp hmem).1
    rw [hdis] at hfalse
    cases hfalse
  · intro hstrong
    exact mem_strong_interest.mpr (strongCond_iff.mpr hstrong)

theorem c6_dismissal_asymmetry_witness :
    ("T" : String) ≠ "" ∧
    (∃ e ∈ c6demoEvents, e.event_type = "dismissed" ∧ e.topic_title = "T") ∧
    ("T" ∉ moderate_interest c6demoEvents ∧
      "T" ∈ dismissed_titles c6demoEvents ∧
      (((signalsOf c6demoEvents "T").listen_complete = true ∨
          75 ≤ (signalsOf c6demoEvents "T").max_pct) →
        "T" ∈ strong_interest c6demoEvents)) :=
  ⟨by decide, by decide,
   c6_dismissal_asymmetry c6demoEvents "T" (by decide) (by decide)⟩

/-- C10: when the engagement log is empty, or its file is absent or
unparsable, `get_engagement_summary` returns the empty mapping with no
keys, not a summary of three empty buckets. -/
theorem c10_empty_log_summary (f : EngFile)
    (h : f = .absent ∨ f = .corrupt ∨ load_engagement f = []) :
    get_engagement_summary (load_engagement f) = none ∧
    get_engagement_summary (load_engagement f) ≠
      some { strong_interest := [], moderate_interest := [], dismissed := [] } := by
  have hnone : get_engagement_summary (load_engagement f) = none := by
    rcases h with rfl | rfl | hempty
    · rfl
    · rfl
    · rw [hempty]
      rfl
  refine ⟨hnone, ?_⟩
  rw [hnone]
  exact fun hc => Option.noConfusion hc

theorem c10_empty_log_summary_witness :
    (EngFile.corrupt = .absent ∨ EngFile.corrupt = .corrupt ∨
      load_engagement .corrupt = []) ∧
    (get_engagement_summary (load_engagement .corrupt) = none ∧
      get_engagement_summary (load_engagement .corrupt) ≠
        some { strong_interest := [], moderate_interest := [], dismissed := [] }) :=
  ⟨by decide, c10_empty_log_summary .corrupt (by decide)⟩

/-! ## Voice resolution (claim C7) -/

/-- ASCII lowering, the effect of Python `str.lower()` on the catalog
names and queries involved. -/
def lowerChar (c : Char) : Char :=
  if 'A' ≤ c && c ≤ 'Z' then Char.ofNat (c.toNat + 32) else c

/-- `s.lower()`. -/
def strLower (s : String) : String :=
  String.mk (s.data.map lowerChar)

/-- Whether the first list is a prefix of the second. -/
def isPrefixChars : List Char → List Char → Bool
  | [], _ => true
  | _ :: _, [] => false
  | a :: as, b :: bs => a == b && isPrefixChars as bs

/-- Python `needle in hay` on strings: contiguous substring test. -/
def isSubstr (needle : List Char) : List Char → Bool
  | [] => needle.isEmpty
  | b :: rest => isPrefixChars needle (b :: rest) || isSubstr needle rest

/-- One entry of the TTS collaborator's voice catalog. -/
structure Voice where
  name : String
  voice_id : String
deriving DecidableEq, Repr

/-- The per-voice test of the first loop of `resolve_voice` (src/app.py
lines 730-732): exact case-insensitive name match OR exact id match. -/
def nameOrIdMatch (q : String) (v : Voice) : Bool :=
  strLower v.name == strLower q || v.voice_id == q

/-- The per-voice test of the second loop (src/app.py lines 733-735):
case-insensitive substring match against the name. -/
def substrMatch (q : String) (v : Voice) : Bool :=
  isSubstr (strLower q).data (strLower v.name).data

/-- The first loop of `resolve_voice`: return the id of the first voice
matching by name or by id, in catalog order. -/
def resolveFirstPass : List Voice → String → Option String
  | [], _ => none
  | v :: rest, q =>
    if nameOrIdMatch q v then some v.voice_id else resolveFirstPass rest q

/-- The second loop of `resolve_voice`: first substring match. -/
def resolveSecondPass : List Voice → String → Option String
  | [], _ => none
  | v :: rest, q =>
    if substrMatch q v then some v.voice_id else resolveSecondPass rest q

/-- `resolve_voice` (src/app.py lines 728-736). -/
def resolve_voice (voices : List Voice) (q : String) : Option String :=
  match resolveFirstPass voices q with
  | some vid => some vid
  | none => resolveSecondPass voices q

/-- A catalog in which an earlier voice matches the query by id and a
later voice matches it exactly by name. -/
def c7demoCatalog : List Voice :=
  [⟨"X", "qv"⟩, ⟨"qv", "Y"⟩]

/-- C7 counterexample: on `c7demoCatalog` with query "qv", the unique
exact case-insensitive name match is the voice with id "Y", yet
`resolve_voice` returns "qv" — the id match of an earlier catalog entry
wins over a name match of a later one, so name matches do not take
priority over id matches. -/
theorem c7_counterexample :
    ((c7demoCatalog.filter (fun v => strLower v.name == strLower "qv")).map
      (fun v => v.voice_id)) = ["Y"] ∧
    resolve_voice c7demoCatalog "qv" = some "qv" ∧
    (some "qv" : Option String) ≠ some "Y" := by
  decide

theorem resolveFirstPass_eq_find (voices : List Voice) (q : String) :
    resolveFirstPass voices q =
      (voices.find? (nameOrIdMatch q)).map (fun v => v.voice_id) := by
  induction voices with
  | nil => rfl
  | cons v rest ih =>
    by_cases h : nameOrIdMatch q v
    · simp [resolveFirstPass, List.find?, h]
    · simp only [Bool.not_eq_true] at h
      simp [resolveFirstPass, List.find?, h, ih]

theorem resolveSecondPass_eq_find (voices : List Voice) (q : String) :
    resolveSecondPass voices q =
      (voices.find? (substrMatch q)).map (fun v => v.voice_id) := by
  induction voices with
  | nil => rfl
  | cons v rest ih =>
    by_cases h : substrMatch q v
    · simp [resolveSecondPass, List.find?, h]
    · simp only [Bool.not_eq_true] at h
      simp [resolveSecondPass, List.find?, h, ih]

/-- C7 (amended): `resolve_voice` returns the id of the first catalog
voice matching by case-insensitive name OR by exact id — with no
priority between those two criteria beyond catalog order; only when no
voice passes that combined test does it return the first
case-insensitive substring match; and it returns unresolved (`none`)
when neither loop finds a match. -/
theorem c7_resolution_order (voices : List Voice) (q : String) :
    (∀ v : Voice, voices.find? (nameOrIdMatch q) = some v →
      resolve_voice voices q = some v.voice_id) ∧
    (voices.find? (nameOrIdMatch q) = none →
      ∀ v : Voice, voices.find? (substrMatch q) = some v →
        resolve_voice voices q = some v.voice_id) ∧
    (voices.find? (nameOrIdMatch q) = none →
      voices.find? (substrMatch q) = none →
      resolve_voice voices q = none) := by
  refine ⟨?_, ?_, ?_⟩
  · intro v hfind
    unfold resolve_voice
    rw [resolveFirstPass_eq_find, hfind]
    rfl
  · intro hnone v hfind
    unfold resolve_voice
    rw [resolveFirstPass_eq_find, hnone, resolveSecondPass_eq_find, hfind]
    rfl
  · intro hnone1 hnone2
    unfold resolve_voice
    rw [resolveFirstPass_eq_find, hnone1, resolveSecondPass_eq_find, hnone2]
    rfl

theorem c7_resolution_order_witness :
    (c7demoCatalog.find? (nameOrIdMatch "qv") = some ⟨"X", "qv"⟩ ∧
      resolve_voice c7demoCatalog "qv" = some (Voice.mk "X" "qv").voice_id) ∧
    ([⟨"Alpha", "a1"⟩] : List Voice).find? (nameOrIdMatch "lph") = none ∧
    ([⟨"Alpha", "a1"⟩] : List Voice).find? (substrMatch "lph") =
      some ⟨"Alpha", "a1"⟩ ∧
    resolve_voice [⟨"Alpha", "a1"⟩] "lph" = some (Voice.mk "Alpha" "a1").voice_id ∧
    ([] : List Voice).find? (nameOrIdMatch "zz") = none ∧
    ([] : List Voice).find? (substrMatch "zz") = none ∧
    resolve_voice [] "zz" = none :=
  ⟨⟨by decide, (c7_resolution_order c7demoCatalog "qv").1 ⟨"X", "qv"⟩ (by decide)⟩,
   by decide, by decide,
   (c7_resolution_order [⟨"Alpha", "a1"⟩] "lph").2.1 (by decide)
     ⟨"Alpha", "a1"⟩ (by decide),
   by decide, by decide,
   (c7_resolution_order [] "zz").2.2 (by decide) (by decide)⟩

/-! ## Topic-of-the-day cache (claims C8, C9) -/

/-- An editorial topic.  The cache layer treats topics as opaque
payloads, so of each FALLBACK_TOPICS record only the rank and title
are kept; the prose fields are never consulted by the cached paths. -/
structure Topic where
  rank : Nat
  title : String
deriving DecidableEq, Repr

/-- The fixed fallback list `FALLBACK_TOPICS` (src/app.py lines
227-234), by rank and title. -/
def FALLBACK_TOPICS : List Topic :=
  [⟨1, "The Governance Tax: Why Most Enterprise AI Programs Are Paying for Risk They\'ve Already Accepted"⟩,
   ⟨2, "Agentic AI Broke Your ROI Model - And Your CFO Doesn\'t Know It Yet"⟩,
   ⟨3, "The Data Moat Is Dead - What Replaces It as Strategic Advantage"⟩,
   ⟨4, "Beverage Alcohol\'s Data Silence Problem: Why the Industry Knows Less Than It Should"⟩,
   ⟨5, "Why Your Best Analysts Are Training Their Own Replacements"⟩,
   ⟨6, "The CAO Role Is Disappearing - What Comes Next Is More Powerful and Harder to Fill"⟩]

/-- The `topics_cache.json` file: absent, unparsable, or a record with
a `date` tag and a topics list. -/
inductive TopicsCache where
  | absent
  | corrupt
  | entry (date : String) (topics : List Topic)
deriving DecidableEq, Repr

/-- `get_topics_for_today` (src/app.py lines 314-325): when a parsable
cache entry carries today's date, return its topics verbatim and leave
the file alone; otherwise invoke the generator (whose result is the
`gen` argument), overwrite the cache tagged with today, and return the
fresh topics.  The Bool records whether the generator was invoked. -/
def get_topics_for_today (today : String) (gen : List Topic) :
    TopicsCache → List Topic × TopicsCache × Bool
  | .absent => (gen, .entry today gen, true)
  | .corrupt => (gen, .entry today gen, true)
  | .entry d topics =>
    if d == today then (topics, .entry d topics, false)
    else (gen, .entry today gen, true)

/-- `generate_topics_via_claude` (src/app.py lines 327-344): without an
API key return FALLBACK_TOPICS immediately; with one, return the first
six parsed topics of a successful call, and FALLBACK_TOPICS when the
call or the parse of its output raises. -/
def generate_topics_via_claude (haveApiKey : Bool)
    (callResult : Except String (List Topic)) : List Topic :=
  if !haveApiKey then FALLBACK_TOPICS
  else
    match callResult with
    | .ok topics => topics.take 6
    | .error _ => FALLBACK_TOPICS

/-- C8: two sequential `get_topics_for_today` calls on the same
calendar date invoke the generation collaborator at most once: the
second call never invokes it, returns the first call's topics
unchanged, and leaves the cache unchanged; the first call on the next
calendar date invokes the collaborator again. -/
theorem c8_daily_cache_single_generation (cache : TopicsCache)
    (today tomorrow : String) (gen1 gen2 gen3 : List Topic)
    (hne : tomorrow ≠ today) :
    ((get_topics_for_today today gen2
        (get_topics_for_today today gen1 cache).2.1).2.2 = false) ∧
    ((get_topics_for_today today gen2
        (get_topics_for_today today gen1 cache).2.1).1 =
      (get_topics_for_today today gen1 cache).1) ∧
    ((get_topics_for_today today gen2
        (get_topics_for_today today gen1 cache).2.1).2.1 =
      (get_topics_for_today today gen1 cache).2.1) ∧
    ((get_topics_for_today tomorrow gen3
        (get_topics_for_today today gen1 cache).2.1).2.2 = true) := by
  have hts : (today == tomorrow) = false := by
    simp [Ne.symm hne]
  cases cache with
  | absent => simp [get_topics_for_today, hts]
  | corrupt => simp [get_topics_for_today, hts]
  | entry d topics =>
    by_cases hd : d = today
    · subst hd
      simp [get_topics_for_today, hts]
    · have hd' : (d == today) = false := by simp [hd]
      simp [get_topics_for_today, hd', hts]

theorem c8_daily_cache_single_generation_witness :
    ("2026-10-13" : String) ≠ "2026-10-12" ∧
    (((get_topics_for_today "2026-10-12" FALLBACK_TOPICS
        (get_topics_for_today "2026-10-12" FALLBACK_TOPICS .absent).2.1).2.2 = false) ∧
     ((get_topics_for_today "2026-10-12" FALLBACK_TOPICS
        (get_topics_for_today "2026-10-12" FALLBACK_TOPICS .absent).2.1).1 =
       (get_topics_for_today "2026-10-12" FALLBACK_TOPICS .absent).1) ∧
     ((get_topics_for_today "2026-10-12" FALLBACK_TOPICS
        (get_topics_for_today "2026-10-12" FALLBACK_TOPICS .absent).2.1).2.1 =
       (get_topics_for_today "2026-10-12" FALLBACK_TOPICS .absent).2.1) ∧
     ((get_topics_for_today "2026-10-13" FALLBACK_TOPICS
        (get_topics_for_today "2026-10-12" FALLBACK_TOPICS .absent).2.1).2.2 = true)) :=
  ⟨by decide,
   c8_daily_cache_single_generation .absent "2026-10-12" "2026-10-13"
     FALLBACK_TOPICS FALLBACK_TOPICS FALLBACK_TOPICS (by decide)⟩

/-- C9: when the generation path fails (missing API key, or a raising
or unparsable collaborator call) on a date with no valid cache entry,
`get_topics_for_today` still writes a cache entry tagged with today
whose topics are the fixed FALLBACK_TOPICS list, and every subsequent
call on the same date returns the fallback topics without invoking
generation again. -/
theorem c9_failed_generation_caches_fallback (cache : TopicsCache)
    (today : String) (haveApiKey : Bool)
    (callResult : Except String (List Topic))
    (hfail : haveApiKey = false ∨ ∃ msg, callResult = .error msg)
    (hmiss : ∀ d topics, cache = .entry d topics → (d == today) = false) :
    (get_topics_for_today today
        (generate_topics_via_claude haveApiKey callResult) cache).1 =
      FALLBACK_TOPICS ∧
    (get_topics_for_today today
        (generate_topics_via_claude haveApiKey callResult) cache).2.1 =
      .entry today FALLBACK_TOPICS ∧
    (get_topics_for_today today
        (generate_topics_via_claude haveApiKey callResult) cache).2.2 = true ∧
    (∀ gen2 : List Topic,
      (get_topics_for_today today gen2
          (get_topics_for_today today
            (generate_topics_via_claude haveApiKey callResult) cache).2.1).1 =
        FALLBACK_TOPICS ∧
      (get_topics_for_today today gen2
          (get_topics_for_today today
            (generate_topics_via_claude haveApiKey callResult) cache).2.1).2.2 =
        false) := by
  have hgen : generate_topics_via_claude haveApiKey callResult = FALLBACK_TOPICS := by
    rcases hfail with hk | ⟨msg, hc⟩
    · simp [generate_topics_via_claude, hk]
    · subst hc
      cases haveApiKey <;> simp [generate_topics_via_claude]
  have hwrite : (get_topics_for_today today
      (generate_topics_via_claude haveApiKey callResult) cache) =
      (FALLBACK_TOPICS, .entry today FALLBACK_TOPICS, true) := by
    cases cache with
    | absent => simp [get_topics_for_today, hgen]
    | corrupt => simp [get_topics_for_today, hgen]
    | entry d topics =>
      have hd := hmiss d topics rfl
      simp [get_topics_for_today, hd, hgen]
  rw [hwrite]
  refine ⟨rfl, rfl, rfl, ?_⟩
  intro gen2
  simp [get_topics_for_today]

theorem c9_failed_generation_caches_fallback_witness :
    ((false = false ∨ ∃ msg, (Except.ok [] : Except String (List Topic)) = .error msg) ∧
      (∀ d topics, TopicsCache.absent = .entry d topics → (d == "2026-10-12") = false)) ∧
    ((get_topics_for_today "2026-10-12"
        (generate_topics_via_claude false (.ok [])) .absent).1 = FALLBACK_TOPICS ∧
     (get_topics_for_today "2026-10-12"
        (generate_topics_via_claude false (.ok [])) .absent).2.1 =
       .entry "2026-10-12" FALLBACK_TOPICS) :=
  ⟨⟨Or.inl rfl, fun d topics h => by cases h⟩,
   ⟨(c9_failed_generation_caches_fallback .absent "2026-10-12" false (.ok [])
       (Or.inl rfl) (fun d topics h => by cases h)).1,
    (c9_failed_generation_caches_fallback .absent "2026-10-12" false (.ok [])
       (Or.inl rfl) (fun d topics h => by cases h)).2.1⟩⟩
